import Mathlib

/-!
Shallow embedding of `zeppelin/converters/markdown.py`:
the `MarkdownConverter` base class and its `LegacyConverter` /
`NewConverter` variants, which turn Zeppelin notebook JSON into
Markdown lines.

Modelling conventions:
* Python strings are Lean `String`s; character-level work happens on
  `String.data : List Char`.
* The mutable converter object becomes an explicit `ConvState` record
  threaded through each method.
* `dateutil.parser.parse` is external; date fields carry the already
  parsed value, modelled as `Int` (any linear order works).
* `json.loads` inside `build_table` is external; it is passed in as a
  function `jp : String → Option TableJson`, `none` standing for a
  `ValueError` (invalid JSON).
* File-system effects (PNG writing, directory creation) are outside the
  buffer model; only their effect on the conversion state is kept.
-/

namespace Zeppelin

/-- Python whitespace characters used by `str.split(None)` / `str.strip()`
(ASCII portion, which covers the notebook inputs). -/
def pySpace (c : Char) : Bool :=
  c = ' ' || c = '\t' || c = '\n' || c = '\r' || c = '\x0b' || c = '\x0c'

/-- Python `s.strip()` on the character list. -/
def pyStripL (s : List Char) : List Char :=
  ((s.dropWhile pySpace).reverse.dropWhile pySpace).reverse

/-- Python `s.strip()`. -/
def pyStrip (s : String) : String :=
  String.mk (pyStripL s.data)

/-- Python `s.split(sep)` for a one-character separator: every occurrence
of `sep` separates fields, empty fields kept (`''.split(sep) == ['']`). -/
def splitOnChar (sep : Char) (s : List Char) : List (List Char) :=
  s.foldr
    (fun c acc =>
      if c = sep then [] :: acc
      else
        match acc with
        | h :: t => (c :: h) :: t
        | [] => [[c]])
    [[]]

/-- Python `msg.split('\n')` on a `String`. -/
def pySplitLines (s : String) : List String :=
  (splitOnChar '\n' s.data).map String.mk

/-- Python `row.split('\t')` on a `String`. -/
def pySplitTab (s : String) : List String :=
  (splitOnChar '\t' s.data).map String.mk

/-- Python `'\n'.join(ls)`. -/
def joinLines (ls : List String) : String :=
  String.intercalate "\n" ls

/-- Python `paragraph.split(None, 1)` when it yields exactly two parts:
the first whitespace-delimited token and the remainder with its leading
whitespace removed. `none` models the `ValueError` raised by the
two-target unpacking when the split yields fewer than two parts. -/
def pySplit1 (s : List Char) : Option (List Char × List Char) :=
  let s1 := s.dropWhile pySpace
  match s1 with
  | [] => none
  | _ =>
    let tok := s1.takeWhile (fun c => !(pySpace c))
    let rest := (s1.dropWhile (fun c => !(pySpace c))).dropWhile pySpace
    if rest = [] then none else some (tok, rest)

/-- Number of occurrences of character `c` in string `s`. -/
def countChar (c : Char) (s : String) : Nat :=
  s.data.count c

/-- Index of the first occurrence of `pat` as a contiguous sublist of `s`. -/
def firstIdx (pat : List Char) : List Char → Option Nat
  | [] => if pat.isPrefixOf ([] : List Char) then some 0 else none
  | c :: rest =>
    if pat.isPrefixOf (c :: rest) then some 0
    else (firstIdx pat rest).map (· + 1)

/-- Index of the last occurrence of `pat` as a contiguous sublist of `s`. -/
def lastIdx (pat : List Char) : List Char → Option Nat
  | [] => if pat.isPrefixOf ([] : List Char) then some 0 else none
  | c :: rest =>
    match lastIdx pat rest with
    | some i => some (i + 1)
    | none => if pat.isPrefixOf (c :: rest) then some 0 else none

/-! ## Data model: paragraphs, result blocks, notebook -/

/-- A table row as Python sees it: either a raw (tab-delimited) string or
an already-split list of cell strings (`create_md_row`'s `isinstance`
branch). -/
inductive Row where
  | str (s : String)
  | cells (cs : List String)
deriving DecidableEq

/-- Result of `json.loads` on a table message, when it succeeds and has
the shape `build_table` reads: fields `exceeded` and `data`. -/
structure TableJson where
  exceeded : Int
  data : List Row
deriving DecidableEq

/-- Legacy (`result` key) result block: fields in source access order. -/
structure LegacyResult where
  code : String
  msg : String
  type : String
deriving DecidableEq

/-- One element of the new schema's `results.msg` list. -/
structure NewMsgItem where
  type : String
  data : String
deriving DecidableEq

/-- New (`results` key) result block. -/
structure NewResults where
  code : String
  msg : List NewMsgItem
deriving DecidableEq

/-- A notebook paragraph; every key may be absent. `config` is
`Option (Option String)`: outer layer = the `config` key itself, inner
layer = its `editorMode` entry. Date fields carry the
`dateutil`-parsed value. -/
structure Paragraph where
  user : Option String := none
  dateCreated : Option Int := none
  dateUpdated : Option Int := none
  title : Option String := none
  config : Option (Option String) := none
  text : Option String := none
  result : Option LegacyResult := none
  results : Option NewResults := none
deriving DecidableEq

/-- Top-level notebook object. -/
structure Notebook where
  name : String
  paragraphs : List Paragraph
deriving DecidableEq

/-- The converter instance's mutable attributes. `date_created` /
`date_updated` use `none` for the `'N/A'` sentinel. -/
structure ConvState where
  index : Nat
  directory : String
  user : String
  date_created : Option Int
  date_updated : Option Int
  language : Option String
  out : List String
deriving DecidableEq

/-- `__init__` with the test fixture's defaults. -/
def initState (directory : String) (language : Option String) : ConvState :=
  ⟨0, directory, "anonymous", none, none, language, []⟩

/-! ## `MarkdownConverter` methods (buffer-level operations) -/

/-- `build_markdown(self, lang, body)`: append the body when it is not
`None`. -/
def build_markdown (lang : String) (body : Option String) (out : List String) :
    List String :=
  match body with
  | some b => out ++ [b]
  | none => out

/-- `build_code(self, lang, body)`: fence, body via `build_markdown`,
closing fence. -/
def build_code (lang : String) (body : Option String) (out : List String) :
    List String :=
  build_markdown lang body (out ++ ["```" ++ lang]) ++ ["```"]

/-- `build_text(self, msg)`. -/
def build_text (msg : String) (out : List String) : List String :=
  out ++ [msg]

/-- `process_title(self, text)`. -/
def process_title (text : String) (out : List String) : List String :=
  out ++ ["#### " ++ text]

/-- `build_repl_result(self, msg)`: strip and `'# '`-comment every line
of the message, then emit it as a python code block. -/
def build_repl_result (msg : String) (out : List String) : List String :=
  build_code "python"
    (some (joinLines ((pySplitLines msg).map (fun m => "# " ++ pyStrip m)))) out

/-- Python falsiness `if not row` for a `Row`. -/
def rowEmpty : Row → Bool
  | .str s => s = ""
  | .cells cs => cs = []

/-- The `cols` local of `create_md_row`: split a string row on tabs,
keep a list row as-is. -/
def rowCols : Row → List String
  | .str s => pySplitTab s
  | .cells cs => cs

/-- `create_md_row(self, row, header=False)`. -/
def create_md_row (row : Row) (header : Bool) (out : List String) :
    List String :=
  if rowEmpty row then out
  else
    match rowCols row with
    | [c] => out ++ [c]
    | cols =>
      let p := cols.foldl
        (fun acc col => (acc.1 ++ col ++ "|", acc.2 ++ "-|")) ("|", "|")
      if header then out ++ [p.1 ++ "\n" ++ p.2] else out ++ [p.1]

/-- `build_table(self, msg)`: `jp` stands for `json.loads`, `none` for
its `ValueError` (fall back to line splitting). -/
def build_table (jp : String → Option TableJson) (msg : String)
    (out : List String) : List String :=
  let rows : List Row :=
    match jp msg with
    | some j => if j.exceeded ≠ -1 then j.data.take 20 else j.data
    | none => (pySplitLines msg).map Row.str
  match rows with
  | [] => out
  | header_row :: body_rows =>
    body_rows.foldl (fun acc row => create_md_row row false acc)
      (create_md_row header_row true out)

/-! ## State-level operations -/

/-- `process_config(self, config)`: set the default language from
`editorMode` when present. -/
def process_config (config : Option String) (st : ConvState) : ConvState :=
  match config with
  | none => st
  | some mode =>
    if mode = "ace/mode/scala" then { st with language := some "scala" }
    else if mode = "ace/mode/python" then { st with language := some "python" }
    else st

/-- `process_date_created(self, text)` on the already-parsed date:
set from the `'N/A'` sentinel, then replace if strictly earlier. -/
def process_date_created (d : Int) (st : ConvState) : ConvState :=
  let st1 := if st.date_created = none then { st with date_created := some d } else st
  match st1.date_created with
  | some c => if d < c then { st1 with date_created := some d } else st1
  | none => st1

/-- `process_date_updated(self, text)` on the already-parsed date:
set from the `'N/A'` sentinel, then replace if strictly later. -/
def process_date_updated (d : Int) (st : ConvState) : ConvState :=
  let st1 := if st.date_updated = none then { st with date_updated := some d } else st
  match st1.date_updated with
  | some c => if d > c then { st1 with date_updated := some d } else st1
  | none => st1

/-- Python `s.startswith('%')` on the character list. -/
def startsWithPercent : List Char → Bool
  | '%' :: _ => true
  | _ => false

/-- Lines 68–78 of `process_input`: classify the paragraph text into
`(lang, body)` (before the md / pyspark dispatch). -/
def parse_input_text (language : Option String) (paragraph : String) :
    String × Option String :=
  let lb : List Char × Option String :=
    match pySplit1 paragraph.data with
    | some (tok, rest) => (tok, some (String.mk rest))
    | none => (paragraph.data, none)
  if !(startsWithPercent (pyStripL lb.1)) then
    (language.getD "scala", some (pyStrip paragraph))
  else
    (String.mk ((pyStripL lb.1).drop 1), lb.2)

/-- `process_input(self, paragraph)`: classify, then dispatch to
`build_markdown` for md or `build_code` otherwise, normalizing
`pyspark` to `python`. -/
def process_input (paragraph : String) (st : ConvState) : ConvState :=
  let lb := parse_input_text st.language paragraph
  if lb.1 = "md" then { st with out := build_markdown lb.1 lb.2 st.out }
  else
    let lang := if lb.1 = "pyspark" then "python" else lb.1
    { st with out := build_code lang lb.2 st.out }

/-- The shared part of `build_image(self, msg)`: on a found image,
increment the index and append the Markdown image reference (the PNG
write itself is a file-system effect outside the state). `fi` is the
variant's `find_image`. -/
def build_image (fi : String → Option String) (msg : String) (st : ConvState) :
    ConvState :=
  match fi msg with
  | none => st
  | some _ =>
    let index := st.index + 1
    let images_path := if st.directory ≠ "" then st.directory ++ "/images" else "images"
    { st with
      index := index,
      out := st.out ++
        ["\n![png](" ++ images_path ++ "/output_" ++ toString index ++ ".png)\n"] }

/-! ## LegacyConverter -/

/-- `LegacyConverter._XML_HEADER` (the `<`-escapes decoded). -/
def XML_HEADER : String :=
  "<?xml version=\"1.0\" encoding=\"utf-8\" standalone=\"no\"?>\n" ++
  "<!DOCTYPE svg PUBLIC \"-//W3C//DTD SVG 1.1//EN\"\n" ++
  "  \"http://www.w3.org/Graphics/SVG/1.1/DTD/svg11.dtd\">\n"

/-- Model of `re.search('(?s)<svg.*</svg>', msg)`: leftmost start (first
`<svg`), greedy end (last `</svg>` beginning at least 4 characters
later); `none` when the pattern has no match. -/
def svg_match (msg : List Char) : Option (List Char) :=
  match firstIdx "<svg".data msg with
  | none => none
  | some i =>
    match lastIdx "</svg>".data msg with
    | none => none
    | some j =>
      if i + 4 ≤ j then some ((msg.drop i).take (j + 6 - i)) else none

/-- `LegacyConverter.find_image(self, msg)`: no match or the literal
empty element `<svg></svg>` gives `None`; otherwise the matched
fragment itself. -/
def find_image (msg : String) : Option String :=
  match svg_match msg.data with
  | none => none
  | some r => if r = "<svg></svg>".data then none else some (String.mk r)

/-- The SVG text `LegacyConverter.write_image_to_disk` hands to
`cairosvg.svg2png`: the fixed XML/DOCTYPE preamble plus the extracted
fragment. -/
def write_image_svg (result : String) : String :=
  XML_HEADER ++ result

/-- `LegacyConverter.process_results(self, paragraph)`. -/
def legacy_process_results (jp : String → Option TableJson) (p : Paragraph)
    (st : ConvState) : ConvState :=
  match p.result with
  | none => st
  | some r =>
    if r.code = "SUCCESS" ∧ r.msg ≠ "" then
      if r.type = "HTML" then build_image find_image r.msg st
      else if r.type = "TEXT" then { st with out := build_repl_result r.msg st.out }
      else if r.type = "TABLE" then { st with out := build_table jp r.msg st.out }
      else st
    else if r.code = "ERROR" then
      { st with out := st.out ++ [":heavy_exclamation_mark:"] }
    else st

/-! ## NewConverter -/

/-- Model of `re.search('base64,(.*?)"', msg)` scanned left to right:
at each occurrence of `base64,` the lazy group takes characters up to
the next `\"`, failing at a newline (`.` does not match `\n`); on
failure the scan resumes at the next position. -/
def new_find_image_aux : List Char → Option (List Char)
  | [] => none
  | c :: rest =>
    let s := c :: rest
    let here : Option (List Char) :=
      if "base64,".data.isPrefixOf s then
        let after := s.drop 7
        let taken := after.takeWhile (fun ch => ch ≠ '"' && ch ≠ '\n')
        if (after.drop taken.length).headD ' ' = '"' then some taken else none
      else none
    match here with
    | some r => some r
    | none => new_find_image_aux rest

/-- `NewConverter.find_image(self, msg)`. -/
def new_find_image (msg : String) : Option String :=
  (new_find_image_aux msg.data).map String.mk

/-- `NewConverter.process_results(self, paragraph)`; `Except` carries
the `KeyError` raised by the unguarded `paragraph['config']` access. -/
def new_process_results (jp : String → Option TableJson) (p : Paragraph)
    (st : ConvState) : Except String ConvState :=
  match p.config with
  | none => .error "KeyError: config"
  | some cfg =>
    match cfg with
    | none => .ok st
    | some em =>
      let mode := String.mk ((splitOnChar '/' em.data).getLastD [])
      match p.results with
      | none => .ok st
      | some r =>
        if r.code = "SUCCESS" ∧ r.msg ≠ [] then
          match r.msg with
          | [] => .ok st
          | m :: _ =>
            if mode ≠ "text" ∧ mode ≠ "markdown" then
              if m.type = "HTML" then .ok (build_image new_find_image m.data st)
              else if m.type = "TEXT" then
                .ok { st with out := build_repl_result m.data st.out }
              else if m.type = "TABLE" then
                .ok { st with out := build_table jp m.data st.out }
              else .ok st
            else .ok st
        else .ok st

/-! ## Paragraph walker and facade -/

/-- `key_options` entry `('dateCreated', process_date_created)`:
invoke the handler only when the key is present. -/
def key_dateCreated (p : Paragraph) (st : ConvState) : ConvState :=
  match p.dateCreated with
  | some d => process_date_created d st
  | none => st

/-- `key_options` entry `('dateUpdated', process_date_updated)`. -/
def key_dateUpdated (p : Paragraph) (st : ConvState) : ConvState :=
  match p.dateUpdated with
  | some d => process_date_updated d st
  | none => st

/-- `key_options` entry `('title', process_title)`. -/
def key_title (p : Paragraph) (st : ConvState) : ConvState :=
  match p.title with
  | some t => { st with out := process_title t st.out }
  | none => st

/-- `key_options` entry `('config', process_config)`. -/
def key_config (p : Paragraph) (st : ConvState) : ConvState :=
  match p.config with
  | some c => process_config c st
  | none => st

/-- `key_options` entry `('text', process_input)`. -/
def key_text (p : Paragraph) (st : ConvState) : ConvState :=
  match p.text with
  | some t => process_input t st
  | none => st

/-- The `key_options` loop of `build_markdown_body`, in source order:
`dateCreated`, `dateUpdated`, `title`, `config`, `text`. -/
def apply_key_options (p : Paragraph) (st : ConvState) : ConvState :=
  key_text p (key_config p (key_title p (key_dateUpdated p (key_dateCreated p st))))

/-- One iteration of the paragraph loop in `build_markdown_body`:
user overwrite, the `key_options` handlers, then the variant's
`process_results` when the result key is present. -/
def process_paragraph (proc : Paragraph → ConvState → Except String ConvState)
    (hasKey : Paragraph → Bool) (p : Paragraph) (st : ConvState) :
    Except String ConvState :=
  let st1 := match p.user with
    | some u => { st with user := u }
    | none => st
  let st2 := apply_key_options p st1
  if hasKey p then proc p st2 else .ok st2

/-- `build_markdown_body(self, text)`: fold the paragraph loop over the
notebook. -/
def build_markdown_body (proc : Paragraph → ConvState → Except String ConvState)
    (hasKey : Paragraph → Bool) (nb : Notebook) (st : ConvState) :
    Except String ConvState :=
  nb.paragraphs.foldlM (fun st p => process_paragraph proc hasKey p st) st

/-- The legacy walker (`_RESULT_KEY = 'result'`). -/
def legacy_build_markdown_body (jp : String → Option TableJson) (nb : Notebook)
    (st : ConvState) : Except String ConvState :=
  build_markdown_body (fun p st => .ok (legacy_process_results jp p st))
    (fun p => p.result.isSome) nb st

/-- The new-schema walker (`_RESULT_KEY = 'results'`). -/
def new_build_markdown_body (jp : String → Option TableJson) (nb : Notebook)
    (st : ConvState) : Except String ConvState :=
  build_markdown_body (new_process_results jp) (fun p => p.results.isSome) nb st

/-- `str(date)` for the header: the sentinel prints as `N/A`. -/
def dateStr : Option Int → String
  | none => "N/A"
  | some d => toString d

/-- The seven header lines of `build_header(self, title)`. -/
def header_lines (title : String) (st : ConvState) : List String :=
  ["---",
   "title: " ++ title,
   "author(s): " ++ st.user,
   "tags: ",
   "created_at: " ++ dateStr st.date_created,
   "updated_at: " ++ dateStr st.date_updated,
   "---"]

/-- `build_header(self, title)`: prepend the header block to the
buffer. -/
def build_header (title : String) (st : ConvState) : ConvState :=
  { st with out := header_lines title st ++ st.out }

/-- `build_output(self, fout)`: the text written to the sink — the
buffer lines joined by newline (no trailing newline). -/
def build_output (out : List String) : String :=
  String.intercalate "\n" out

/-- `convert(self, json, fout)`: body, then header, then flatten. -/
def convert (proc : Paragraph → ConvState → Except String ConvState)
    (hasKey : Paragraph → Bool) (nb : Notebook) (st : ConvState) :
    Except String (ConvState × String) :=
  match build_markdown_body proc hasKey nb st with
  | .error e => .error e
  | .ok st1 =>
    let st2 := build_header nb.name st1
    .ok (st2, build_output st2.out)

/-- A `json.loads` stand-in that always fails (invalid JSON). -/
def jpFail : String → Option TableJson := fun _ => none

/-- The paragraph of the C1 end-to-end scenario: legacy result block
with code `SUCCESS`, type `TEXT`, msg `one ring to bring them all`. -/
def pC1 : Paragraph :=
  ⟨none, none, none, none, none, none,
   some ⟨"SUCCESS", "one ring to bring them all", "TEXT"⟩, none⟩

/-- A legacy paragraph whose result block has code `ERROR`. -/
def pC2leg : Paragraph :=
  ⟨none, none, none, none, none, none, some ⟨"ERROR", "boom", "TEXT"⟩, none⟩

/-- A new-schema paragraph with `config.editorMode` present and a
results block with code `ERROR`. -/
def pC2new : Paragraph :=
  ⟨none, none, none, none, some (some "ace/mode/scala"), none, none,
   some ⟨"ERROR", [⟨"TEXT", "boom"⟩]⟩⟩

/-- A new-schema paragraph carrying `results` but no `config` key. -/
def pC10 : Paragraph :=
  ⟨none, none, none, none, none, some "%md hello", none,
   some ⟨"SUCCESS", [⟨"TEXT", "x"⟩]⟩⟩

/-! ## Theorems -/

/-- Value of the created-date field after one tracker step: set on the
sentinel, otherwise widened to the minimum. -/
lemma process_date_created_val (d : Int) (st : ConvState) :
    (process_date_created d st).date_created =
      some (match st.date_created with | none => d | some c => min d c) := by
  unfold process_date_created
  cases h : st.date_created with
  | none => simp [h]
  | some c =>
    simp only [h, if_neg (by simp [h] : ¬ st.date_created = none)]
    by_cases hlt : d < c
    · simp [h, hlt, min_eq_left hlt.le]
    · simp [h, hlt, min_eq_right (not_lt.mp hlt)]

/-- Value of the updated-date field after one tracker step: set on the
sentinel, otherwise widened to the maximum. -/
lemma process_date_updated_val (d : Int) (st : ConvState) :
    (process_date_updated d st).date_updated =
      some (match st.date_updated with | none => d | some c => max d c) := by
  unfold process_date_updated
  cases h : st.date_updated with
  | none => simp [h]
  | some c =>
    simp only [h, if_neg (by simp [h] : ¬ st.date_updated = none)]
    by_cases hlt : d > c
    · simp [h, hlt, max_eq_left hlt.le]
    · simp [h, hlt, max_eq_right (not_lt.mp hlt)]

/-- C6: feeding two parseable dates to `process_date_created` from the
unset sentinel leaves `date_created = min` in either order (symmetric
`max` for `process_date_updated`), and one tracker step commutes with
another from any state. -/
theorem date_tracker_commutes :
    (∀ (d1 d2 : Int) (dir : String) (lang : Option String),
      (process_date_created d2 (process_date_created d1 (initState dir lang))).date_created
          = some (min d1 d2) ∧
      (process_date_created d1 (process_date_created d2 (initState dir lang))).date_created
          = some (min d1 d2) ∧
      (process_date_updated d2 (process_date_updated d1 (initState dir lang))).date_updated
          = some (max d1 d2) ∧
      (process_date_updated d1 (process_date_updated d2 (initState dir lang))).date_updated
          = some (max d1 d2)) ∧
    (∀ (d1 d2 : Int) (st : ConvState),
      (process_date_created d2 (process_date_created d1 st)).date_created =
        (process_date_created d1 (process_date_created d2 st)).date_created ∧
      (process_date_updated d2 (process_date_updated d1 st)).date_updated =
        (process_date_updated d1 (process_date_updated d2 st)).date_updated) := by
  constructor
  · intro d1 d2 dir lang
    simp only [process_date_created_val, process_date_updated_val, initState]
    refine ⟨by rw [min_comm], trivial, by rw [max_comm], trivial⟩
  · intro d1 d2 st
    constructor
    · rw [process_date_created_val, process_date_created_val,
        process_date_created_val, process_date_created_val]
      cases st.date_created with
      | none => simp [min_comm]
      | some c => simp [min_left_comm]
    · rw [process_date_updated_val, process_date_updated_val,
        process_date_updated_val, process_date_updated_val]
      cases st.date_updated with
      | none => simp [max_comm]
      | some c => simp [max_left_comm]

/-- C4: the input classifier on the spec's sample inputs — directive
with body, whitespace around the directive, no directive (default
language), marker not at token start, and `pyspark` normalization. -/
theorem input_classifier_cases :
    (∀ lst : Option String, parse_input_text lst "%md text" = ("md", some "text")) ∧
    (∀ lst : Option String, parse_input_text lst " %md   text" = ("md", some "text")) ∧
    (∀ lst : Option String,
      parse_input_text lst " sample text" = (lst.getD "scala", some "sample text")) ∧
    parse_input_text none "s%ample" = ("scala", some "s%ample") ∧
    (∀ st : ConvState,
      (process_input "%pyspark x" st).out = st.out ++ ["```python", "x", "```"]) := by
  refine ⟨fun lst => rfl, fun lst => rfl, fun lst => rfl, rfl, fun st => ?_⟩
  show build_code "python" (some "x") st.out = st.out ++ ["```python", "x", "```"]
  simp [build_code, build_markdown]

/-- C8: rendering a code block with an absent (`None`) body appends the
opening fence labeled with the language and the bare closing fence,
with nothing between (`build_markdown` suppresses the body line). -/
theorem null_body_fences :
    ∀ (lang : String) (out : List String),
      build_code lang none out = out ++ ["```" ++ lang, "```"] ∧
      build_markdown lang none out = out := by
  intro lang out
  exact ⟨by simp [build_code, build_markdown], rfl⟩

/-- C1 (divergence witness): on the legacy SUCCESS/TEXT paragraph with
msg `one ring to bring them all`, `process_results` appends the
commented message with no `# Output:` banner — unlike the expected
lines asserted by the repository's own test. -/
theorem repl_text_no_banner :
    (legacy_process_results jpFail pC1 (initState "" none)).out =
      ["```python", "# one ring to bring them all", "```"] ∧
    (["```python", "# one ring to bring them all", "```"] : List String) ≠
      ["```python", "# Output:\n# -------\n# one ring to bring them all", "```"] := by
  exact ⟨rfl, by decide⟩

/-- C2 (counterexample): the new-variant router on an `ERROR` result
block appends no line at all — not the single warning marker the claim
requires for either variant. -/
theorem new_error_appends_nothing :
    new_process_results jpFail pC2new (initState "" none) = .ok (initState "" none) ∧
    (initState "" none).out = [] := by
  exact ⟨rfl, rfl⟩

/-- C2 (amended): on an `ERROR` result block the legacy router appends
exactly the fixed warning marker regardless of msg; the new router has
no error branch and (when `config` is present) leaves the state
unchanged. -/
theorem error_marker_by_variant :
    (∀ (jp : String → Option TableJson) (p : Paragraph) (r : LegacyResult)
        (st : ConvState), p.result = some r → r.code = "ERROR" →
      legacy_process_results jp p st =
        { st with out := st.out ++ [":heavy_exclamation_mark:"] }) ∧
    (∀ (jp : String → Option TableJson) (p : Paragraph) (r : NewResults)
        (st : ConvState), p.results = some r → r.code = "ERROR" →
      p.config ≠ none → new_process_results jp p st = .ok st) := by
  constructor
  · intro jp p r st hres hcode
    simp only [legacy_process_results, hres]
    rw [if_neg (by rw [hcode]; rintro ⟨h, -⟩; exact absurd h (by decide))]
    rw [if_pos hcode]
  · intro jp p r st hres hcode hcfg
    unfold new_process_results
    cases hc : p.config with
    | none => exact absurd hc hcfg
    | some cfg =>
      cases cfg with
      | none => rfl
      | some em =>
        simp only [hres]
        rw [if_neg (by rw [hcode]; rintro ⟨h, -⟩; exact absurd h (by decide))]

/-- C2 amended, at concrete inputs. -/
theorem error_marker_by_variant_witness :
    legacy_process_results jpFail pC2leg (initState "" none) =
      { initState "" none with
        out := (initState "" none).out ++ [":heavy_exclamation_mark:"] } ∧
    new_process_results jpFail pC2new (initState "" none) = .ok (initState "" none) :=
  ⟨error_marker_by_variant.1 jpFail pC2leg _ (initState "" none) rfl rfl,
   error_marker_by_variant.2 jpFail pC2new _ (initState "" none) rfl rfl (by decide)⟩

/-- C10: a new-schema paragraph lacking the `config` key makes
`process_results` hit the unguarded `paragraph['config']` access and
raise `KeyError`, and the error is reachable through the public walker
whenever such a paragraph also carries `results`. -/
theorem new_missing_config_keyerror :
    (∀ (jp : String → Option TableJson) (p : Paragraph) (st : ConvState),
      p.config = none → new_process_results jp p st = .error "KeyError: config") ∧
    (∀ (jp : String → Option TableJson) (name : String) (p : Paragraph)
        (st : ConvState), p.config = none → p.results.isSome = true →
      new_build_markdown_body jp ⟨name, [p]⟩ st = .error "KeyError: config") := by
  have herr : ∀ (jp : String → Option TableJson) (p : Paragraph) (st : ConvState),
      p.config = none → new_process_results jp p st = .error "KeyError: config" := by
    intro jp p st hcfg
    unfold new_process_results
    rw [hcfg]
  refine ⟨herr, ?_⟩
  intro jp name p st hcfg hres
  have hp : ∀ s, process_paragraph (new_process_results jp) (fun p => p.results.isSome) p s
      = .error "KeyError: config" := by
    intro s
    unfold process_paragraph
    rw [if_pos hres, herr jp p _ hcfg]
  unfold new_build_markdown_body build_markdown_body
  simp only [List.foldlM_cons, List.foldlM_nil, hp]
  rfl

/-- C10 at concrete inputs. -/
theorem new_missing_config_keyerror_witness :
    new_process_results jpFail pC10 (initState "" none) = .error "KeyError: config" ∧
    new_build_markdown_body jpFail ⟨"n", [pC10]⟩ (initState "" none) =
      .error "KeyError: config" :=
  ⟨new_missing_config_keyerror.1 jpFail pC10 (initState "" none) rfl,
   new_missing_config_keyerror.2 jpFail "n" pC10 (initState "" none) rfl rfl⟩

/-- A `json.loads` stand-in returning a fixed parsed object. -/
def jpConst (j : TableJson) : String → Option TableJson := fun _ => some j

/-- C3: row selection of `build_table` — with parsed JSON and
`exceeded ≠ -1` only the first 20 data rows are rendered; with
`exceeded = -1` all rows are; invalid JSON falls back to one row per
line of the message (no error); and in every non-empty case the first
selected row is rendered as a header row, the rest as body rows. -/
theorem build_table_routes :
    (∀ (jp : String → Option TableJson) (j : TableJson) (msg : String)
        (out : List String), jp msg = some j → j.exceeded ≠ -1 →
      build_table jp msg out = build_table (jpConst ⟨-1, j.data.take 20⟩) msg out) ∧
    (∀ (jp : String → Option TableJson) (msg : String) (out : List String),
        jp msg = none →
      build_table jp msg out =
        build_table (jpConst ⟨-1, (pySplitLines msg).map Row.str⟩) msg out) ∧
    (∀ (jp : String → Option TableJson) (j : TableJson) (msg : String)
        (out : List String) (h : Row) (t : List Row),
        jp msg = some j → j.exceeded = -1 → j.data = h :: t →
      build_table jp msg out =
        t.foldl (fun acc row => create_md_row row false acc)
          (create_md_row h true out)) ∧
    (∀ (jp : String → Option TableJson) (j : TableJson) (msg : String)
        (out : List String), jp msg = some j → j.exceeded = -1 → j.data = [] →
      build_table jp msg out = out) := by
  refine ⟨?_, ?_, ?_, ?_⟩
  · intro jp j msg out hjp hexc
    simp only [build_table, hjp, jpConst, if_pos hexc,
      if_neg (by simp : ¬ (-1 : Int) ≠ -1)]
  · intro jp msg out hjp
    simp only [build_table, hjp, jpConst, if_neg (by simp : ¬ (-1 : Int) ≠ -1)]
  · intro jp j msg out h t hjp hexc hdata
    simp only [build_table, hjp, if_neg (by simp [hexc] : ¬ j.exceeded ≠ -1), hdata]
  · intro jp j msg out hjp hexc hdata
    simp only [build_table, hjp, if_neg (by simp [hexc] : ¬ j.exceeded ≠ -1), hdata]

/-- C3 at concrete inputs: a parsed table with `exceeded = 0`, an
invalid-JSON fallback, and the header/body split. -/
theorem build_table_routes_witness :
    build_table (fun _ => some ⟨0, [Row.str "a\tb", Row.str "c\td"]⟩) "m" [] =
      build_table (jpConst ⟨-1, ([Row.str "a\tb", Row.str "c\td"] : List Row).take 20⟩) "m" [] ∧
    build_table jpFail "x\ny" [] =
      build_table (jpConst ⟨-1, (pySplitLines "x\ny").map Row.str⟩) "x\ny" [] ∧
    build_table (fun _ => some ⟨-1, [Row.str "a\tb", Row.str "c\td"]⟩) "m" [] =
      [Row.str "c\td"].foldl (fun acc row => create_md_row row false acc)
        (create_md_row (Row.str "a\tb") true []) :=
  ⟨build_table_routes.1 _ ⟨0, [Row.str "a\tb", Row.str "c\td"]⟩ "m" [] rfl (by decide),
   build_table_routes.2.1 jpFail "x\ny" [] rfl,
   build_table_routes.2.2.1 _ ⟨-1, [Row.str "a\tb", Row.str "c\td"]⟩ "m" []
     (Row.str "a\tb") [Row.str "c\td"] rfl rfl rfl⟩

/-- A successful `svg_match` returns a contiguous substring of its
input. -/
lemma svg_match_sub (s r : List Char) (h : svg_match s = some r) :
    ∃ a b, s = a ++ r ++ b := by
  unfold svg_match at h
  cases hf : firstIdx "<svg".data s with
  | none => simp only [hf] at h; exact absurd h (by simp)
  | some i =>
    simp only [hf] at h
    cases hl : lastIdx "</svg>".data s with
    | none => simp only [hl] at h; exact absurd h (by simp)
    | some j =>
      simp only [hl] at h
      by_cases hij : i + 4 ≤ j
      · rw [if_pos hij, Option.some.injEq] at h
        refine ⟨s.take i, (s.drop i).drop (j + 6 - i), ?_⟩
        rw [← h, List.append_assoc, List.take_append_drop, List.take_append_drop]
      · rw [if_neg hij] at h; exact absurd h (by simp)

/-- C5: the legacy image extractor returns `None` when the regex has no
match or the match is the literal `<svg></svg>`; a returned fragment is
exactly the regex match, byte-identical to a contiguous substring of
the input; and the XML/DOCTYPE preamble is prepended only by the decode
step (`write_image_to_disk`), never by the extractor. -/
theorem legacy_image_extractor :
    (∀ msg : String, svg_match msg.data = none → find_image msg = none) ∧
    (∀ msg : String, svg_match msg.data = some ("<svg></svg>".data) →
      find_image msg = none) ∧
    (∀ (msg frag : String), find_image msg = some frag →
      svg_match msg.data = some frag.data ∧
      ∃ a b, msg.data = a ++ frag.data ++ b) ∧
    (∀ result : String, write_image_svg result = XML_HEADER ++ result) := by
  refine ⟨?_, ?_, ?_, fun result => rfl⟩
  · intro msg h
    simp only [find_image, h]
  · intro msg h
    simp only [find_image, h]
    simp
  · intro msg frag h
    unfold find_image at h
    cases hm : svg_match msg.data with
    | none => simp only [hm] at h; exact absurd h (by simp)
    | some r =>
      simp only [hm] at h
      by_cases hr : r = "<svg></svg>".data
      · rw [if_pos hr] at h; exact absurd h (by simp)
      · rw [if_neg hr, Option.some.injEq] at h
        have hdata : frag.data = r := by rw [← h]
        rw [hdata]
        exact ⟨rfl, svg_match_sub msg.data r hm⟩

/-- C5 at a concrete input: a non-empty SVG fragment is extracted
byte-identically. -/
theorem legacy_image_extractor_witness :
    svg_match ("z<svg>x</svg>w" : String).data =
        some (("<svg>x</svg>" : String).data) ∧
    ∃ a b, ("z<svg>x</svg>w" : String).data =
        a ++ ("<svg>x</svg>" : String).data ++ b :=
  legacy_image_extractor.2.2.1 "z<svg>x</svg>w" "<svg>x</svg>" rfl

/-- Splitting character counts over string concatenation. -/
lemma countChar_append (ch : Char) (x y : String) :
    countChar ch (x ++ y) = countChar ch x + countChar ch y := by
  show ((x ++ y).data).count ch = x.data.count ch + y.data.count ch
  rw [show (x ++ y).data = x.data ++ y.data from rfl, List.count_append]

/-- Pipe count of the first component of `create_md_row`'s fold, for
pipe-free fields. -/
lemma md_fold_fst_pipe (cols : List String)
    (h : ∀ c ∈ cols, countChar '|' c = 0) : ∀ a b : String,
    countChar '|'
        ((cols.foldl (fun acc col => (acc.1 ++ col ++ "|", acc.2 ++ "-|")) (a, b)).1)
      = countChar '|' a + cols.length := by
  induction cols with
  | nil => intro a b; simp
  | cons c cs ih =>
    intro a b
    rw [List.foldl_cons]
    rw [ih (fun x hx => h x (List.mem_cons_of_mem c hx)) (a ++ c ++ "|") (b ++ "-|")]
    rw [countChar_append, countChar_append, h c (List.mem_cons_self c cs)]
    simp [countChar]
    omega

/-- Pipe count of the underline component of `create_md_row`'s fold. -/
lemma md_fold_snd_pipe (cols : List String) : ∀ a b : String,
    countChar '|'
        ((cols.foldl (fun acc col => (acc.1 ++ col ++ "|", acc.2 ++ "-|")) (a, b)).2)
      = countChar '|' b + cols.length := by
  induction cols with
  | nil => intro a b; simp
  | cons c cs ih =>
    intro a b
    rw [List.foldl_cons]
    rw [ih (a ++ c ++ "|") (b ++ "-|")]
    rw [countChar_append]
    simp [countChar]
    omega

/-- Dash count of the underline component of `create_md_row`'s fold. -/
lemma md_fold_snd_dash (cols : List String) : ∀ a b : String,
    countChar '-'
        ((cols.foldl (fun acc col => (acc.1 ++ col ++ "|", acc.2 ++ "-|")) (a, b)).2)
      = countChar '-' b + cols.length := by
  induction cols with
  | nil => intro a b; simp
  | cons c cs ih =>
    intro a b
    rw [List.foldl_cons]
    rw [ih (a ++ c ++ "|") (b ++ "-|")]
    rw [countChar_append]
    simp [countChar]
    omega

/-- Character-level shape of the row component of `create_md_row`'s
fold: the accumulator followed by each field with a separator pipe. -/
lemma md_fold_fst_data (cols : List String) : ∀ a b : String,
    ((cols.foldl (fun acc col => (acc.1 ++ col ++ "|", acc.2 ++ "-|")) (a, b)).1).data
      = a.data ++ (cols.map (fun c => c.data ++ ['|'])).flatten := by
  induction cols with
  | nil => intro a b; simp
  | cons c cs ih =>
    intro a b
    rw [List.foldl_cons, ih]
    rw [show (a ++ c ++ "|").data = a.data ++ c.data ++ ['|'] from rfl]
    simp [List.append_assoc]

/-- Character-level shape of the underline component of
`create_md_row`'s fold: the accumulator followed by one `-|` cell per
field. -/
lemma md_fold_snd_data (cols : List String) : ∀ a b : String,
    ((cols.foldl (fun acc col => (acc.1 ++ col ++ "|", acc.2 ++ "-|")) (a, b)).2).data
      = b.data ++ (cols.map (fun _ => ['-', '|'])).flatten := by
  induction cols with
  | nil => intro a b; simp
  | cons c cs ih =>
    intro a b
    rw [List.foldl_cons, ih]
    rw [show (b ++ "-|").data = b.data ++ ['-', '|'] from rfl]
    simp [List.append_assoc]

/-- C7 (counterexample): a two-field row whose first field itself
contains a pipe yields a line with 4 pipe characters, not N+1 = 3. -/
theorem md_row_pipe_count_cex :
    create_md_row (Row.cells ["a|b", "c"]) false [] = ["|a|b|c|"] ∧
    countChar '|' "|a|b|c|" = 4 ∧
    (["a|b", "c"] : List String).length + 1 = 3 :=
  ⟨rfl, rfl, rfl⟩

/-- C7 (amended): for every row — tab-delimited string or cell list,
its fields given by `rowCols` — an empty row appends nothing; a
single-field row appends the field as one raw line with no table
markup; a row of N > 1 fields appends one buffer entry whose row line
is the N fields each followed by a separator pipe after an opening
pipe (so exactly N+1 pipe characters when no field itself contains a
pipe), and with the header flag the entry additionally contains,
joined by a newline, an underline of exactly N dash-separated cells
(N dashes, N+1 pipes). -/
theorem md_row_amended :
    (∀ (h : Bool) (out : List String), create_md_row (Row.cells []) h out = out) ∧
    (∀ (h : Bool) (out : List String), create_md_row (Row.str "") h out = out) ∧
    (∀ (row : Row) (c : String) (h : Bool) (out : List String),
      rowEmpty row = false → rowCols row = [c] →
      create_md_row row h out = out ++ [c]) ∧
    (∀ (row : Row) (cols : List String) (out : List String),
      rowEmpty row = false → rowCols row = cols → 2 ≤ cols.length →
      ∃ line dash,
        create_md_row row false out = out ++ [line] ∧
        create_md_row row true out = out ++ [line ++ "\n" ++ dash] ∧
        line.data = '|' :: (cols.map (fun c => c.data ++ ['|'])).flatten ∧
        dash.data = '|' :: (cols.map (fun _ => ['-', '|'])).flatten ∧
        countChar '|' dash = cols.length + 1 ∧
        countChar '-' dash = cols.length ∧
        ((∀ c ∈ cols, countChar '|' c = 0) →
          countChar '|' line = cols.length + 1)) := by
  refine ⟨fun h out => rfl, fun h out => rfl, ?_, ?_⟩
  · intro row c h out hempty hcols
    simp [create_md_row, hempty, hcols]
  · intro row cols out hempty hcols hlen
    match cols, hcols, hlen with
    | c1 :: c2 :: rest, hcols, _ =>
      refine ⟨((c1 :: c2 :: rest).foldl
          (fun acc col => (acc.1 ++ col ++ "|", acc.2 ++ "-|")) ("|", "|")).1,
        ((c1 :: c2 :: rest).foldl
          (fun acc col => (acc.1 ++ col ++ "|", acc.2 ++ "-|")) ("|", "|")).2,
        ?_, ?_, ?_, ?_, ?_, ?_, ?_⟩
      · simp [create_md_row, hempty, hcols]
      · simp [create_md_row, hempty, hcols]
      · rw [md_fold_fst_data (c1 :: c2 :: rest) "|" "|"]
        rfl
      · rw [md_fold_snd_data (c1 :: c2 :: rest) "|" "|"]
        rfl
      · rw [md_fold_snd_pipe (c1 :: c2 :: rest) "|" "|"]
        simp [countChar]
        omega
      · rw [md_fold_snd_dash (c1 :: c2 :: rest) "|" "|"]
        simp [countChar]
      · intro hfree
        rw [md_fold_fst_pipe (c1 :: c2 :: rest) hfree "|" "|"]
        simp [countChar]
        omega

/-- C7 amended, at concrete inputs: a tab-delimited string row (two
fields) and a single-field string row. -/
theorem md_row_amended_witness :
    (∃ line dash,
      create_md_row (Row.str "a\tb") false [] = [] ++ [line] ∧
      create_md_row (Row.str "a\tb") true [] = [] ++ [line ++ "\n" ++ dash] ∧
      line.data = '|' ::
        ((["a", "b"] : List String).map (fun c => c.data ++ ['|'])).flatten ∧
      dash.data = '|' ::
        ((["a", "b"] : List String).map (fun _ => ['-', '|'])).flatten ∧
      countChar '|' dash = (["a", "b"] : List String).length + 1 ∧
      countChar '-' dash = (["a", "b"] : List String).length ∧
      ((∀ c ∈ (["a", "b"] : List String), countChar '|' c = 0) →
        countChar '|' line = (["a", "b"] : List String).length + 1)) ∧
    create_md_row (Row.str "test") true [] = [] ++ ["test"] :=
  ⟨md_row_amended.2.2.2 (Row.str "a\tb") ["a", "b"] [] rfl rfl (by decide),
   md_row_amended.2.2.1 (Row.str "test") "test" true [] rfl rfl⟩

/-- Composing two buffer extensions. -/
lemma append_chain {a b c : List String} (h1 : ∃ t, b = a ++ t)
    (h2 : ∃ t, c = b ++ t) : ∃ t, c = a ++ t := by
  obtain ⟨t1, rfl⟩ := h1
  obtain ⟨t2, rfl⟩ := h2
  exact ⟨t1 ++ t2, by rw [List.append_assoc]⟩

lemma build_markdown_out (lang : String) (body : Option String)
    (out : List String) : ∃ t, build_markdown lang body out = out ++ t := by
  cases body with
  | none => exact ⟨[], by simp [build_markdown]⟩
  | some b => exact ⟨[b], rfl⟩

lemma build_code_out (lang : String) (body : Option String) (out : List String) :
    ∃ t, build_code lang body out = out ++ t := by
  cases body with
  | none => exact ⟨["```" ++ lang, "```"], by simp [build_code, build_markdown]⟩
  | some b => exact ⟨["```" ++ lang, b, "```"], by simp [build_code, build_markdown]⟩

lemma build_repl_result_out (msg : String) (out : List String) :
    ∃ t, build_repl_result msg out = out ++ t :=
  build_code_out _ _ out

lemma create_md_row_out (row : Row) (header : Bool) (out : List String) :
    ∃ t, create_md_row row header out = out ++ t := by
  unfold create_md_row
  split
  · exact ⟨[], by simp⟩
  · split
    · exact ⟨[_], rfl⟩
    · split
      · exact ⟨[_], rfl⟩
      · exact ⟨[_], rfl⟩

lemma md_rows_foldl_out (rows : List Row) : ∀ out : List String,
    ∃ t, rows.foldl (fun acc row => create_md_row row false acc) out = out ++ t := by
  induction rows with
  | nil => intro out; exact ⟨[], by simp⟩
  | cons r rs ih =>
    intro out
    rw [List.foldl_cons]
    exact append_chain (create_md_row_out r false out) (ih _)

lemma md_render_out (rows : List Row) (out : List String) :
    ∃ t, (match rows with
      | [] => out
      | header_row :: body_rows =>
        body_rows.foldl (fun acc row => create_md_row row false acc)
          (create_md_row header_row true out)) = out ++ t := by
  cases rows with
  | nil => exact ⟨[], by simp⟩
  | cons h tl => exact append_chain (create_md_row_out _ true out) (md_rows_foldl_out _ _)

lemma build_table_out (jp : String → Option TableJson) (msg : String)
    (out : List String) : ∃ t, build_table jp msg out = out ++ t :=
  md_render_out _ out

lemma build_image_out (fi : String → Option String) (msg : String)
    (st : ConvState) : ∃ t, (build_image fi msg st).out = st.out ++ t := by
  unfold build_image
  split
  · exact ⟨[], by simp⟩
  · exact ⟨[_], rfl⟩

lemma out_with (st : ConvState) (X : List String) (h : ∃ t, X = st.out ++ t) :
    ∃ t, ({ st with out := X } : ConvState).out = st.out ++ t := h

lemma process_input_out (text : String) (st : ConvState) :
    ∃ t, (process_input text st).out = st.out ++ t := by
  simp only [process_input]
  split
  · exact out_with _ _ (build_markdown_out _ _ _)
  · exact out_with _ _ (build_code_out _ _ _)

lemma process_config_out (c : Option String) (st : ConvState) :
    (process_config c st).out = st.out := by
  unfold process_config
  split
  · rfl
  · split_ifs <;> rfl

lemma process_date_created_out (d : Int) (st : ConvState) :
    (process_date_created d st).out = st.out := by
  simp only [process_date_created]
  split_ifs with h
  · simp
  · split
    · split_ifs <;> rfl
    · rfl

lemma process_date_updated_out (d : Int) (st : ConvState) :
    (process_date_updated d st).out = st.out := by
  simp only [process_date_updated]
  split_ifs with h
  · simp
  · split
    · split_ifs <;> rfl
    · rfl

lemma apply_key_options_out (p : Paragraph) (st : ConvState) :
    ∃ t, (apply_key_options p st).out = st.out ++ t := by
  have e1 : (key_dateCreated p st).out = st.out := by
    unfold key_dateCreated
    split
    · exact process_date_created_out _ _
    · rfl
  have e2 : ∀ s : ConvState, (key_dateUpdated p s).out = s.out := by
    intro s
    unfold key_dateUpdated
    split
    · exact process_date_updated_out _ _
    · rfl
  have e3 : ∀ s : ConvState, ∃ t, (key_title p s).out = s.out ++ t := by
    intro s
    unfold key_title
    split
    · exact ⟨[_], rfl⟩
    · exact ⟨[], by simp⟩
  have e4 : ∀ s : ConvState, (key_config p s).out = s.out := by
    intro s
    unfold key_config
    split
    · exact process_config_out _ _
    · rfl
  have e5 : ∀ s : ConvState, ∃ t, (key_text p s).out = s.out ++ t := by
    intro s
    unfold key_text
    split
    · exact process_input_out _ _
    · exact ⟨[], by simp⟩
  obtain ⟨t3, h3⟩ := e3 (key_dateUpdated p (key_dateCreated p st))
  obtain ⟨t5, h5⟩ :=
    e5 (key_config p (key_title p (key_dateUpdated p (key_dateCreated p st))))
  refine ⟨t3 ++ t5, ?_⟩
  unfold apply_key_options
  rw [h5, e4, h3, e2, e1, List.append_assoc]

lemma process_paragraph_out (proc : Paragraph → ConvState → Except String ConvState)
    (hasKey : Paragraph → Bool)
    (hproc : ∀ q s s', proc q s = .ok s' → ∃ t, s'.out = s.out ++ t)
    (p : Paragraph) (st st' : ConvState)
    (h : process_paragraph proc hasKey p st = .ok st') :
    ∃ t, st'.out = st.out ++ t := by
  simp only [process_paragraph] at h
  have hu : ∃ t, (match p.user with
      | some u => { st with user := u }
      | none => st).out = st.out ++ t := by
    split <;> exact ⟨[], by simp⟩
  split at h
  · exact append_chain (append_chain hu (apply_key_options_out p _)) (hproc _ _ _ h)
  · cases h
    exact append_chain hu (apply_key_options_out p _)

lemma foldlM_out (f : ConvState → Paragraph → Except String ConvState)
    (hf : ∀ st p st', f st p = .ok st' → ∃ t, st'.out = st.out ++ t) :
    ∀ (ps : List Paragraph) (st st' : ConvState),
      List.foldlM f st ps = .ok st' → ∃ t, st'.out = st.out ++ t := by
  intro ps
  induction ps with
  | nil =>
    intro st st' h
    rw [List.foldlM_nil] at h
    cases h
    exact ⟨[], by simp⟩
  | cons p ps ih =>
    intro st st' h
    rw [List.foldlM_cons] at h
    cases hf1 : f st p with
    | error e =>
      rw [hf1] at h
      exact Except.noConfusion (show Except.error e = Except.ok st' from h)
    | ok st1 =>
      rw [hf1] at h
      exact append_chain (hf st p st1 hf1)
        (ih st1 st' (show List.foldlM f st1 ps = .ok st' from h))

lemma legacy_process_results_out (jp : String → Option TableJson)
    (p : Paragraph) (st : ConvState) :
    ∃ t, (legacy_process_results jp p st).out = st.out ++ t := by
  unfold legacy_process_results
  split
  · exact ⟨[], by simp⟩
  · split_ifs
    · exact build_image_out _ _ _
    · exact build_repl_result_out _ _
    · exact build_table_out _ _ _
    · exact ⟨[], by simp⟩
    · exact ⟨[_], rfl⟩
    · exact ⟨[], by simp⟩

lemma new_process_results_out (jp : String → Option TableJson)
    (p : Paragraph) (st st' : ConvState)
    (h : new_process_results jp p st = .ok st') :
    ∃ t, st'.out = st.out ++ t := by
  simp only [new_process_results] at h
  repeat' split at h
  all_goals
    first
      | exact Except.noConfusion h
      | (cases h
         first
           | exact build_image_out _ _ _
           | exact out_with _ _ (build_repl_result_out _ _)
           | exact out_with _ _ (build_table_out _ _ _)
           | exact ⟨[], (List.append_nil _).symm⟩)

/-- C9: every paragraph-processing operation on the output line buffer
only appends — existing entries are never edited or removed — the sole
exception being `build_header`'s single prepend of the fixed header
block at finalization, after which `build_output` flattens the buffer
by joining its lines with newline (no trailing newline). -/
theorem buffer_append_only :
    (∀ (lang : String) (body : Option String) (out : List String),
      ∃ t, build_markdown lang body out = out ++ t) ∧
    (∀ (lang : String) (body : Option String) (out : List String),
      ∃ t, build_code lang body out = out ++ t) ∧
    (∀ (msg : String) (out : List String), ∃ t, build_text msg out = out ++ t) ∧
    (∀ (text : String) (out : List String), ∃ t, process_title text out = out ++ t) ∧
    (∀ (msg : String) (out : List String), ∃ t, build_repl_result msg out = out ++ t) ∧
    (∀ (row : Row) (header : Bool) (out : List String),
      ∃ t, create_md_row row header out = out ++ t) ∧
    (∀ (jp : String → Option TableJson) (msg : String) (out : List String),
      ∃ t, build_table jp msg out = out ++ t) ∧
    (∀ (fi : String → Option String) (msg : String) (st : ConvState),
      ∃ t, (build_image fi msg st).out = st.out ++ t) ∧
    (∀ (text : String) (st : ConvState),
      ∃ t, (process_input text st).out = st.out ++ t) ∧
    (∀ (jp : String → Option TableJson) (p : Paragraph) (st : ConvState),
      ∃ t, (legacy_process_results jp p st).out = st.out ++ t) ∧
    (∀ (jp : String → Option TableJson) (p : Paragraph) (st st' : ConvState),
      new_process_results jp p st = .ok st' → ∃ t, st'.out = st.out ++ t) ∧
    (∀ (jp : String → Option TableJson) (nb : Notebook) (st st' : ConvState),
      legacy_build_markdown_body jp nb st = .ok st' → ∃ t, st'.out = st.out ++ t) ∧
    (∀ (jp : String → Option TableJson) (nb : Notebook) (st st' : ConvState),
      new_build_markdown_body jp nb st = .ok st' → ∃ t, st'.out = st.out ++ t) ∧
    (∀ (title : String) (st : ConvState),
      (build_header title st).out = header_lines title st ++ st.out) ∧
    (∀ out : List String, build_output out = String.intercalate "\n" out) := by
  refine ⟨build_markdown_out, build_code_out, fun msg out => ⟨[msg], rfl⟩,
    fun text out => ⟨["#### " ++ text], rfl⟩, build_repl_result_out,
    create_md_row_out, build_table_out, build_image_out, process_input_out,
    legacy_process_results_out, new_process_results_out, ?_, ?_,
    fun title st => rfl, fun out => rfl⟩
  · intro jp nb st st' h
    refine foldlM_out _ ?_ nb.paragraphs st st' h
    intro s p s' hp
    refine process_paragraph_out _ _ ?_ p s s' hp
    intro q a a' ha
    cases ha
    exact legacy_process_results_out jp q a
  · intro jp nb st st' h
    refine foldlM_out _ ?_ nb.paragraphs st st' h
    intro s p s' hp
    exact process_paragraph_out _ _ (new_process_results_out jp) p s s' hp

/-- C9 at a concrete run: the legacy walker over a one-paragraph
notebook extends the initial (empty) buffer. -/
theorem buffer_append_only_witness :
    ∃ t, (⟨0, "", "anonymous", none, none, none, ["#### T"]⟩ : ConvState).out =
      (initState "" none).out ++ t :=
  buffer_append_only.2.2.2.2.2.2.2.2.2.2.2.1 jpFail
    ⟨"n", [⟨none, none, none, some "T", none, none, none, none⟩]⟩
    (initState "" none) ⟨0, "", "anonymous", none, none, none, ["#### T"]⟩ rfl

end Zeppelin
